import Mathlib

/-!
Verification of the matrix-manifold operations of
geomstats/geometry/matrices.py (classes Matrices and MatricesMetric).

Matrices are embedded as Mathlib matrices over ℚ (exact arithmetic standing
in for IEEE doubles), a single matrix of shape (m, n) being
Matrix (Fin m) (Fin n) ℚ.  The batch dimension of the source is not needed
by any claim about a single matrix; shape-level behaviour (belongs,
random_uniform) is embedded on the shape tuples themselves.
-/

open Matrix BigOperators

/-- Module constant TOLERANCE = 1e-5. -/
def TOLERANCE : ℚ := 1 / 100000

/-- Default relative tolerance of the backend isclose (numpy default rtol = 1e-5);
the source calls gs.isclose(mat_a, mat_b, atol=atol) leaving rtol at its default. -/
def RTOL : ℚ := 1 / 100000

/-- The record produced by constructing Matrices(m, n): class Matrices extends
Manifold with dim = m * n and stores m, n and default_point_type. -/
structure Matrices where
  dim : Int
  m : Int
  n : Int
  default_point_type : String
deriving Repr, DecidableEq

namespace Matrices

/-- Modelled from the spec: geomstats.error.check_integer is code of this
repository not under src/.  The spec says construction raises a
ConfigurationError when m or n is not a positive integer, so check_integer
succeeds exactly on positive integers. -/
def check_integer (k : Int) (a : String) : Except String Unit :=
  if 1 ≤ k then Except.ok ()
  else Except.error (a ++ " is supposed to be a positive integer")

/-- Matrices.__init__(m, n): sets dim = m * n via the Manifold base class, then
validates n and m with check_integer (an exception aborts construction), then
stores m, n and default_point_type, and attaches the metric. -/
def init (m n : Int) : Except String Matrices :=
  let dim := m * n
  match check_integer n "n" with
  | Except.error e => Except.error e
  | Except.ok _ =>
    match check_integer m "m" with
    | Except.error e => Except.error e
    | Except.ok _ =>
      Except.ok { dim := dim, m := m, n := n, default_point_type := "matrix" }

/-- Matrices.belongs on a point whose (possibly batched) shape has trailing
dimensions (mat_dim_1, mat_dim_2), for a space with self.m = m, self.n = n.
The Python return line is

  mat_dim_1 == self.m & mat_dim_2 == self.n

where & binds tighter than ==, so it parses as the chained comparison

  (mat_dim_1 == (m &&& mat_dim_2)) and ((m &&& mat_dim_2) == n)

with &&& the bitwise and of the two nonnegative integers. -/
def belongs (m n mat_dim_1 mat_dim_2 : Nat) : Bool :=
  (mat_dim_1 == Nat.land m mat_dim_2) && (Nat.land m mat_dim_2 == n)

/-- The membership test the docstring of belongs describes: the trailing two
dimensions equal (m, n). -/
def belongs_documented (m n mat_dim_1 mat_dim_2 : Nat) : Bool :=
  (mat_dim_1 == m) && (mat_dim_2 == n)

/-- gs.isclose on scalars: absolute difference within atol plus the default
relative tolerance times the magnitude of the second argument. -/
def isclose (a b atol : ℚ) : Prop :=
  |a - b| ≤ atol + RTOL * |b|

instance (a b atol : ℚ) : Decidable (isclose a b atol) :=
  inferInstanceAs (Decidable (|a - b| ≤ atol + RTOL * |b|))

/-- Matrices.equal on single matrices: gs.all(gs.isclose(mat_a, mat_b, atol),
axes) with axes = (0, 1), i.e. isclose at every entry. -/
def equal {p q : Nat} (mat_a mat_b : Matrix (Fin p) (Fin q) ℚ) (atol : ℚ) : Prop :=
  ∀ i j, isclose (mat_a i j) (mat_b i j) atol

instance {p q : Nat} (mat_a mat_b : Matrix (Fin p) (Fin q) ℚ) (atol : ℚ) :
    Decidable (equal mat_a mat_b atol) :=
  inferInstanceAs (Decidable (∀ i j, isclose (mat_a i j) (mat_b i j) atol))

/-- functools.reduce(gs.matmul, args): fails on an empty argument list,
returns the single argument unchanged, and otherwise folds matmul from the
left. -/
def mul {k : Nat} : List (Matrix (Fin k) (Fin k) ℚ) → Option (Matrix (Fin k) (Fin k) ℚ)
  | [] => none
  | a :: rest => some (rest.foldl (fun x y => x * y) a)

/-- Matrices.bracket: cls.mul(mat_a, mat_b) - cls.mul(mat_b, mat_a).  Both
calls of mul carry two arguments so never hit the empty-list failure; getD 0
extracts the always-present value. -/
def bracket {k : Nat} (mat_a mat_b : Matrix (Fin k) (Fin k) ℚ) : Matrix (Fin k) (Fin k) ℚ :=
  (mul [mat_a, mat_b]).getD 0 - (mul [mat_b, mat_a]).getD 0

/-- Matrices.transpose on a single matrix: gs.transpose(mat, (1, 0)), swapping
the two axes. -/
def transpose {p q : Nat} (mat : Matrix (Fin p) (Fin q) ℚ) : Matrix (Fin q) (Fin p) ℚ :=
  Matrix.of fun i j => mat j i

/-- Matrices.is_symmetric: cls.equal(mat, cls.transpose(mat), atol). -/
def is_symmetric {k : Nat} (mat : Matrix (Fin k) (Fin k) ℚ) (atol : ℚ) : Prop :=
  equal mat (transpose mat) atol

/-- Matrices.is_skew_symmetric: cls.equal(mat, - cls.transpose(mat), atol). -/
def is_skew_symmetric {k : Nat} (mat : Matrix (Fin k) (Fin k) ℚ) (atol : ℚ) : Prop :=
  equal mat (-(transpose mat)) atol

/-- Matrices.to_symmetric: 1 / 2 * (mat + cls.transpose(mat)). -/
def to_symmetric {k : Nat} (mat : Matrix (Fin k) (Fin k) ℚ) : Matrix (Fin k) (Fin k) ℚ :=
  (1 / 2 : ℚ) • (mat + transpose mat)

/-- Matrices.to_skew_symmetric: 1 / 2 * (mat - cls.transpose(mat)). -/
def to_skew_symmetric {k : Nat} (mat : Matrix (Fin k) (Fin k) ℚ) : Matrix (Fin k) (Fin k) ℚ :=
  (1 / 2 : ℚ) • (mat - transpose mat)

/-- The shape tuple of the array produced by Matrices.random_uniform:
size = (n_samples, m, n) if n_samples != 1 else (m, n). -/
def random_uniform_shape (m n n_samples : Nat) : List Nat :=
  if n_samples ≠ 1 then [n_samples, m, n] else [m, n]

/-- The entrywise value of Matrices.random_uniform: bound * (u - 0.5) where
u = gs.random.rand(...) is drawn uniformly from [0, 1). -/
def random_uniform_entry (bound u : ℚ) : ℚ :=
  bound * (u - 0.5)

/-- Matrices.congruent: cls.mul(mat_2, mat_1, cls.transpose(mat_2)). -/
def congruent {k : Nat} (mat_1 mat_2 : Matrix (Fin k) (Fin k) ℚ) : Matrix (Fin k) (Fin k) ℚ :=
  (mul [mat_2, mat_1, transpose mat_2]).getD 0

end Matrices

namespace MatricesMetric

/-- MatricesMetric.inner_product on single matrices:
gs.einsum with the subscripts string contracting both axes of both operands,
the sum over all i, j of the products of corresponding entries. -/
def inner_product {p q : Nat} (tangent_vec_a tangent_vec_b : Matrix (Fin p) (Fin q) ℚ) : ℚ :=
  ∑ i, ∑ j, tangent_vec_a i j * tangent_vec_b i j

end MatricesMetric

/-! ## Helper lemmas -/

/-- The embedded transpose coincides with Mathlib's. -/
theorem Matrices.transpose_eq {p q : Nat} (mat : Matrix (Fin p) (Fin q) ℚ) :
    Matrices.transpose mat = Matrix.transpose mat := rfl

/-- Two exactly equal matrices are equal at any nonnegative tolerance. -/
theorem Matrices.equal_of_eq {p q : Nat} (mat_a mat_b : Matrix (Fin p) (Fin q) ℚ)
    (atol : ℚ) (hatol : 0 ≤ atol) (h : mat_a = mat_b) :
    Matrices.equal mat_a mat_b atol := by
  intro i j
  unfold Matrices.isclose
  rw [h, sub_self, abs_zero]
  have hb : 0 ≤ RTOL * |mat_b i j| := by
    apply mul_nonneg _ (abs_nonneg _)
    norm_num [RTOL]
  linarith

/-! ## Claim theorems -/

/-- C1: the code of belongs, evaluated on the space Matrices(2, 3) at a point
of the matching shape (2, 3), returns false, although the docstring and the
spec property require true for a matching shape; the documented membership
test returns true there.  (The return line parses as a chained comparison
through a bitwise and, which only agrees with the documented test when
m = n: at m = n = 2 the code does return true.) -/
theorem C1_belongs_eval :
    Matrices.belongs 2 3 2 3 = false ∧
    Matrices.belongs_documented 2 3 2 3 = true ∧
    Matrices.belongs 2 2 2 2 = true := by
  decide

/-- C2: for every square matrix, to_symmetric plus to_skew_symmetric
reconstructs the matrix exactly. -/
theorem C2_decomposition_roundtrip (k : Nat) (mat : Matrix (Fin k) (Fin k) ℚ) :
    Matrices.to_symmetric mat + Matrices.to_skew_symmetric mat = mat := by
  ext i j
  simp [Matrices.to_symmetric, Matrices.to_skew_symmetric, Matrices.transpose]
  ring

/-- C3: to_symmetric of any square matrix equals its own transpose and passes
is_symmetric at the default tolerance; to_skew_symmetric equals the negation
of its own transpose and passes is_skew_symmetric at the default tolerance. -/
theorem C3_to_symmetric_properties (k : Nat) (mat : Matrix (Fin k) (Fin k) ℚ) :
    Matrices.to_symmetric mat = Matrices.transpose (Matrices.to_symmetric mat) ∧
    Matrices.is_symmetric (Matrices.to_symmetric mat) TOLERANCE ∧
    Matrices.to_skew_symmetric mat = -(Matrices.transpose (Matrices.to_skew_symmetric mat)) ∧
    Matrices.is_skew_symmetric (Matrices.to_skew_symmetric mat) TOLERANCE := by
  have htol : (0 : ℚ) ≤ TOLERANCE := by norm_num [TOLERANCE]
  have hsym : Matrices.to_symmetric mat = Matrices.transpose (Matrices.to_symmetric mat) := by
    ext i j
    simp [Matrices.to_symmetric, Matrices.transpose]
    ring
  have hskew : Matrices.to_skew_symmetric mat =
      -(Matrices.transpose (Matrices.to_skew_symmetric mat)) := by
    ext i j
    simp [Matrices.to_skew_symmetric, Matrices.transpose]
    ring
  exact ⟨hsym, Matrices.equal_of_eq _ _ _ htol hsym,
    hskew, Matrices.equal_of_eq _ _ _ htol hskew⟩

/-- C4: the bracket is antisymmetric and vanishes on the diagonal. -/
theorem C4_bracket_antisymmetric (k : Nat) (mat_a mat_b : Matrix (Fin k) (Fin k) ℚ) :
    Matrices.bracket mat_a mat_b = -(Matrices.bracket mat_b mat_a) ∧
    Matrices.bracket mat_a mat_a = 0 := by
  constructor
  · simp [Matrices.bracket, Matrices.mul]
  · simp [Matrices.bracket]

/-- C5: inner_product computes the Frobenius sum of entrywise products, is
symmetric, and is positive-definite: nonnegative on the diagonal and zero
exactly on the zero matrix. -/
theorem C5_inner_product_properties (p q : Nat) (a b : Matrix (Fin p) (Fin q) ℚ) :
    MatricesMetric.inner_product a b = ∑ i, ∑ j, a i j * b i j ∧
    MatricesMetric.inner_product a b = MatricesMetric.inner_product b a ∧
    0 ≤ MatricesMetric.inner_product a a ∧
    (MatricesMetric.inner_product a a = 0 ↔ a = 0) := by
  refine ⟨rfl, ?_, ?_, ?_⟩
  · unfold MatricesMetric.inner_product
    exact Finset.sum_congr rfl fun i _ => Finset.sum_congr rfl fun j _ => mul_comm _ _
  · exact Finset.sum_nonneg fun i _ => Finset.sum_nonneg fun j _ => mul_self_nonneg _
  · constructor
    · intro h
      ext i j
      have hrow := (Finset.sum_eq_zero_iff_of_nonneg fun i _ =>
        Finset.sum_nonneg fun j _ => mul_self_nonneg (a i j)).mp h i (Finset.mem_univ i)
      have hentry := (Finset.sum_eq_zero_iff_of_nonneg fun j _ =>
        mul_self_nonneg (a i j)).mp hrow j (Finset.mem_univ j)
      have := mul_self_eq_zero.mp hentry
      simpa using this
    · intro h
      subst h
      simp [MatricesMetric.inner_product]

/-- C6: random_uniform produces shape (m, n) for one sample and
(n_samples, m, n) for five, and every generated entry bound * (u - 0.5)
with u uniform in the unit interval lies in the half-open interval from
-bound / 2 inclusive to bound / 2 exclusive, for any positive bound. -/
theorem C6_random_uniform (m n : Nat) (bound u : ℚ)
    (hb : 0 < bound) (hu0 : 0 ≤ u) (hu1 : u < 1) :
    Matrices.random_uniform_shape m n 1 = [m, n] ∧
    Matrices.random_uniform_shape m n 5 = [5, m, n] ∧
    -(bound / 2) ≤ Matrices.random_uniform_entry bound u ∧
    Matrices.random_uniform_entry bound u < bound / 2 := by
  refine ⟨rfl, rfl, ?_, ?_⟩
  · unfold Matrices.random_uniform_entry
    nlinarith
  · unfold Matrices.random_uniform_entry
    nlinarith

/-- Witness for C6 at m = 2, n = 3, bound = 1, u = 0. -/
theorem C6_random_uniform_witness :
    Matrices.random_uniform_shape 2 3 1 = [2, 3] ∧
    Matrices.random_uniform_shape 2 3 5 = [5, 2, 3] ∧
    -((1 : ℚ) / 2) ≤ Matrices.random_uniform_entry 1 0 ∧
    Matrices.random_uniform_entry 1 0 < 1 / 2 :=
  C6_random_uniform 2 3 1 0 (by norm_num) (le_refl 0) (by norm_num)

/-- C7: mul fails on an empty argument list, returns a single argument
unchanged, and chains two or more operands into the left-to-right matrix
product. -/
theorem C7_mul_reduce (k : Nat) :
    Matrices.mul ([] : List (Matrix (Fin k) (Fin k) ℚ)) = none ∧
    (∀ a : Matrix (Fin k) (Fin k) ℚ, Matrices.mul [a] = some a) ∧
    (∀ a b : Matrix (Fin k) (Fin k) ℚ, Matrices.mul [a, b] = some (a * b)) ∧
    (∀ a b c : Matrix (Fin k) (Fin k) ℚ, Matrices.mul [a, b, c] = some (a * b * c)) :=
  ⟨rfl, fun _ => rfl, fun _ _ => rfl, fun _ _ _ => rfl⟩

/-- C8: congruent(mat_1, mat_2) is mat_2 * mat_1 * transpose(mat_2), and it
sends a symmetric mat_1 to a symmetric result. -/
theorem C8_congruent_properties (k : Nat) (mat_1 mat_2 : Matrix (Fin k) (Fin k) ℚ) :
    Matrices.congruent mat_1 mat_2 = mat_2 * mat_1 * Matrices.transpose mat_2 ∧
    (Matrices.transpose mat_1 = mat_1 →
      Matrices.transpose (Matrices.congruent mat_1 mat_2) = Matrices.congruent mat_1 mat_2) := by
  have h1 : Matrices.congruent mat_1 mat_2 = mat_2 * mat_1 * Matrices.transpose mat_2 := rfl
  refine ⟨h1, fun hs => ?_⟩
  rw [h1, Matrices.transpose_eq, Matrices.transpose_eq]
  rw [Matrices.transpose_eq] at hs
  rw [Matrix.transpose_mul, Matrix.transpose_mul, Matrix.transpose_transpose, hs,
    Matrix.mul_assoc]

/-- Witness for C8 at a concrete symmetric mat_1. -/
theorem C8_congruent_witness :
    Matrices.transpose (Matrix.of ![![(1 : ℚ), 2], ![2, 5]]) = Matrix.of ![![(1 : ℚ), 2], ![2, 5]] ∧
    Matrices.transpose
        (Matrices.congruent (Matrix.of ![![(1 : ℚ), 2], ![2, 5]]) (Matrix.of ![![(0 : ℚ), 1], ![3, 4]])) =
      Matrices.congruent (Matrix.of ![![(1 : ℚ), 2], ![2, 5]]) (Matrix.of ![![(0 : ℚ), 1], ![3, 4]]) := by
  have hs : Matrices.transpose (Matrix.of ![![(1 : ℚ), 2], ![2, 5]]) =
      Matrix.of ![![(1 : ℚ), 2], ![2, 5]] := by
    ext i j
    fin_cases i <;> fin_cases j <;> rfl
  exact ⟨hs, (C8_congruent_properties 2 (Matrix.of ![![(1 : ℚ), 2], ![2, 5]])
    (Matrix.of ![![(0 : ℚ), 1], ![3, 4]])).2 hs⟩

/-- C9: constructing Matrices(m, n) succeeds with dim = m * n exactly when m
and n are positive integers, and fails otherwise. -/
theorem C9_init_validation (m n : Int) :
    (1 ≤ m → 1 ≤ n → ∃ s, Matrices.init m n = Except.ok s ∧ s.dim = m * n) ∧
    ((m < 1 ∨ n < 1) → ∀ s, Matrices.init m n ≠ Except.ok s) := by
  constructor
  · intro hm hn
    refine ⟨{ dim := m * n, m := m, n := n, default_point_type := "matrix" }, ?_, rfl⟩
    simp [Matrices.init, Matrices.check_integer, hm, hn]
  · intro hbad s
    rcases hbad with h | h
    · have hm : ¬ (1 ≤ m) := by omega
      by_cases hn : 1 ≤ n <;> simp [Matrices.init, Matrices.check_integer, hm, hn]
    · have hn : ¬ (1 ≤ n) := by omega
      simp [Matrices.init, Matrices.check_integer, hn]

/-- Witness for C9: Matrices(2, 3) succeeds with dim 6; Matrices(0, 3) fails. -/
theorem C9_init_validation_witness :
    (∃ s, Matrices.init 2 3 = Except.ok s ∧ s.dim = 2 * 3) ∧
    (∀ s, Matrices.init 0 3 ≠ Except.ok s) :=
  ⟨(C9_init_validation 2 3).1 (by norm_num) (by norm_num),
   (C9_init_validation 0 3).2 (Or.inl (by norm_num))⟩

/-- C10: random_uniform with n_samples = 0 produces the empty batch shape
(0, m, n); the squeeze to a single (m, n) matrix happens only at
n_samples = 1, every other count k giving shape (k, m, n). -/
theorem C10_random_uniform_shape_zero (m n : Nat) :
    Matrices.random_uniform_shape m n 0 = [0, m, n] ∧
    (∀ k : Nat, k ≠ 1 → Matrices.random_uniform_shape m n k = [k, m, n]) ∧
    Matrices.random_uniform_shape m n 1 = [m, n] := by
  refine ⟨rfl, fun k hk => ?_, rfl⟩
  simp [Matrices.random_uniform_shape, hk]

/-- Witness for C10 at m = 2, n = 3, k = 5. -/
theorem C10_random_uniform_shape_zero_witness :
    Matrices.random_uniform_shape 2 3 0 = [0, 2, 3] ∧
    Matrices.random_uniform_shape 2 3 5 = [5, 2, 3] :=
  ⟨(C10_random_uniform_shape_zero 2 3).1,
   (C10_random_uniform_shape_zero 2 3).2.1 5 (by norm_num)⟩
